import Mathlib

/-!
Shallow embedding of the file_vault repository (Django backend for file
upload with content-addressed deduplication, per-user storage quota and a
sliding-window rate limiter).

Embedded components:
* files/models.py      : FileStorage (blob ledger row), File (logical file),
                         File.find_existing_storage
* src/files/views.py   : FileViewSet.create, FileViewSet.destroy,
                         FileViewSet.user_storage_stats
* src/services/storage_limit_service.py : StorageLimitService
* src/services/rate_limiter_service.py  : RateLimiterService

Modelling conventions:
* File content is represented by its SHA-256 fingerprint (a String); the
  code deduplicates purely on hash equality, so content enters only
  through calculate_file_hash.
* Database rows are lists of records; the UNIQUE constraint on
  FileStorage.file_hash means hash-equality lookup coincides with
  primary-key lookup on reachable states.
* uuid4 request ids of the rate limiter are modelled by a fresh-counter.
* Timestamps (time.time() floats) are modelled as Int; the claims only
  compare timestamps, and the comparisons are exact in the source.
-/

namespace FileVault

/-- FileStorage row (models.py lines 52-61): content-addressed blob ledger
record with a reference count (PositiveIntegerField, default 1). -/
structure BlobRecord where
  file_hash : String
  s3_path : String
  size : Nat
  reference_count : Nat
  deriving DecidableEq, Repr

/-- File row (models.py lines 107-119): a user's logical file referencing a
FileStorage row. The foreign key is represented by the storage row's unique
file_hash; fid models the primary key via a fresh counter. -/
structure FileRecord where
  fid : Nat
  storageHash : String
  user_id : String
  original_filename : String
  file_type : String
  is_duplicate : Bool
  deriving DecidableEq, Repr

/-- Persistent state: the two database tables plus the set of S3 object
keys present in the blob store. -/
structure VaultState where
  blobs : List BlobRecord
  files : List FileRecord
  store : List String
  nextFid : Nat
  deriving DecidableEq, Repr

def emptyVault : VaultState := ⟨[], [], [], 0⟩

/-- File.find_existing_storage (models.py lines 146-152): look up the
FileStorage row by file hash alone; None when absent. -/
def find_existing_storage (st : VaultState) (file_hash : String) : Option BlobRecord :=
  st.blobs.find? (fun b => b.file_hash == file_hash)

/-- StorageLimitService.get_user_storage_usage (storage_limit_service.py
lines 19-27): sum of sizes over the distinct FileStorage rows that are
referenced by at least one of the user's File rows. -/
def get_user_storage_usage (st : VaultState) (user_id : String) : Nat :=
  ((st.blobs.filter (fun b =>
      st.files.any (fun f => f.user_id == user_id && f.storageHash == b.file_hash))).map
    (fun b => b.size)).sum

/-- StorageLimitService.check_storage_limit (storage_limit_service.py
lines 29-38). -/
def check_storage_limit (st : VaultState) (user_id : String)
    (additional_size limit_bytes : Nat) : Bool × String :=
  if get_user_storage_usage st user_id + additional_size > limit_bytes then
    (false, "Storage Quota Exceeded")
  else
    (true, "")

inductive CreateResult where
  | created (is_duplicate : Bool)
  | quotaExceeded
  | s3UploadFailed
  deriving DecidableEq, Repr

/-- S3 object key chosen in FileViewSet.create (views.py line 228-230). -/
def s3Path (file_hash fname : String) : String :=
  "files/" ++ file_hash.take 8 ++ "/" ++ fname

/-- The reference-count increment of views.py lines 222-223
(existing_storage.reference_count += 1; existing_storage.save()), applied
to the row with the given hash. -/
def bumpRef (file_hash : String) (blobs : List BlobRecord) : List BlobRecord :=
  blobs.map (fun b =>
    if b.file_hash == file_hash then
      { b with reference_count := b.reference_count + 1 }
    else b)

/-- FileViewSet.create (views.py lines 184-260), after rate limiting and
file-presence validation. s3ok says whether the S3 upload_fileobj call
succeeds; limit_bytes is StorageLimitService.limit_bytes. Sequential
semantics: the whole handler runs as one step. -/
def create (st : VaultState) (user_id file_hash fname ftype : String)
    (size : Nat) (s3ok : Bool) (limit_bytes : Nat) : VaultState × CreateResult :=
  match find_existing_storage st file_hash with
  | some _ =>
    let f : FileRecord := ⟨st.nextFid, file_hash, user_id, fname, ftype, true⟩
    ({ st with blobs := bumpRef file_hash st.blobs,
               files := st.files ++ [f],
               nextFid := st.nextFid + 1 },
     .created true)
  | none =>
    if (check_storage_limit st user_id size limit_bytes).1 = false then
      (st, .quotaExceeded)
    else if s3ok = false then
      (st, .s3UploadFailed)
    else
      let path := s3Path file_hash fname
      let b : BlobRecord := ⟨file_hash, path, size, 1⟩
      let f : FileRecord := ⟨st.nextFid, file_hash, user_id, fname, ftype, false⟩
      ({ blobs := st.blobs ++ [b],
         files := st.files ++ [f],
         store := st.store ++ [path],
         nextFid := st.nextFid + 1 },
       .created false)

inductive DestroyResult where
  | noContent
  | notFound
  deriving DecidableEq, Repr

/-- FileViewSet.destroy (views.py lines 263-308): ownership check, delete
the File row, decrement the storage row's count in memory and either
delete it (count would drop to <= 0, S3 object removed best-effort) or
save the decremented count. -/
def destroy (st : VaultState) (fid : Nat) (user_id : String) : VaultState × DestroyResult :=
  match st.files.find? (fun f => f.fid == fid) with
  | none => (st, .notFound)
  | some inst =>
    if inst.user_id != user_id then (st, .notFound)
    else
      let files := st.files.filter (fun f => f.fid != fid)
      match st.blobs.find? (fun b => b.file_hash == inst.storageHash) with
      | none => ({ st with files := files }, .noContent)
      | some b =>
        if b.reference_count - 1 == 0 then
          ({ st with files := files,
                     blobs := st.blobs.filter (fun c => c.file_hash != inst.storageHash),
                     store := st.store.filter (fun p => p != b.s3_path) },
           .noContent)
        else
          ({ st with files := files,
                     blobs := st.blobs.map (fun c =>
                       if c.file_hash == inst.storageHash then
                         { c with reference_count := c.reference_count - 1 }
                       else c) },
           .noContent)

/-- user_storage_stats payload (views.py lines 310-341), integer part. -/
structure StorageStats where
  total_storage_used : Nat
  original_storage_used : Nat
  storage_savings : Nat
  deriving DecidableEq, Repr

/-- Size of the storage row a file references (File.size property). -/
def blobSize (st : VaultState) (file_hash : String) : Nat :=
  match st.blobs.find? (fun b => b.file_hash == file_hash) with
  | some b => b.size
  | none => 0

/-- FileViewSet.user_storage_stats (views.py lines 310-341):
total = deduplicated usage, original = sum of storage sizes over the
user's File rows (one addend per row), savings = difference. -/
def user_storage_stats (st : VaultState) (user_id : String) : StorageStats :=
  let total := get_user_storage_usage st user_id
  let original := ((st.files.filter (fun f => f.user_id == user_id)).map
    (fun f => blobSize st f.storageHash)).sum
  ⟨total, original, original - total⟩

/-- Sequential API operations against the vault, for reachability. -/
inductive Op where
  | createOp (user_id file_hash fname ftype : String) (size : Nat) (s3ok : Bool)
  | destroyOp (fid : Nat) (user_id : String)
  deriving DecidableEq, Repr

def applyOp (limit_bytes : Nat) (st : VaultState) : Op → VaultState
  | .createOp uid h fname ftype size s3ok => (create st uid h fname ftype size s3ok limit_bytes).1
  | .destroyOp fid uid => (destroy st fid uid).1

def runOps (limit_bytes : Nat) (st : VaultState) : List Op → VaultState
  | [] => st
  | op :: ops => runOps limit_bytes (applyOp limit_bytes st op) ops

end FileVault

namespace RateLimiter

/-- RequestInfo (rate_limiter_service.py lines 9-13); the str(uuid.uuid4())
request id is modelled by a fresh counter value. -/
structure RequestInfo where
  request_id : Nat
  timestamp : Int
  user_id : String
  deriving DecidableEq, Repr

/-- RateLimiterService state (rate_limiter_service.py lines 16-21): the
per-user deques of RequestInfo plus the configuration; nextRequestId is
the fresh-id counter standing for uuid4 generation. -/
structure RLState where
  max_calls : Nat
  time_window : Int
  queues : String → List RequestInfo
  nextRequestId : Nat

/-- RateLimiterService._clean_expired_requests (rate_limiter_service.py
lines 43-47): pop from the front while current_time - head.timestamp is at
least time_window. -/
def clean_expired_requests (time_window current_time : Int) :
    List RequestInfo → List RequestInfo
  | [] => []
  | r :: rs =>
    if current_time - r.timestamp ≥ time_window then
      clean_expired_requests time_window current_time rs
    else
      r :: rs

def updateQueue (st : RLState) (user_id : String) (q : List RequestInfo) : RLState :=
  { st with queues := fun u => if u = user_id then q else st.queues u }

structure AddResult where
  state : RLState
  request_id : Nat
  allowed : Bool

/-- RateLimiterService.add_request (rate_limiter_service.py lines 49-65):
generate the request id, purge the user's expired entries, deny when the
purged queue already has max_calls entries, otherwise append now. -/
def add_request (st : RLState) (user_id : String) (current_time : Int) : AddResult :=
  let request_id := st.nextRequestId
  let st1 : RLState := { st with nextRequestId := request_id + 1 }
  let q := clean_expired_requests st.time_window current_time (st.queues user_id)
  if st.max_calls ≤ q.length then
    ⟨updateQueue st1 user_id q, request_id, false⟩
  else
    ⟨updateQueue st1 user_id (q ++ [⟨request_id, current_time, user_id⟩]),
     request_id, true⟩

structure AllowedResult where
  state : RLState
  allowed : Bool
  message : String
  request_id : Nat

/-- RateLimiterService.is_allowed (rate_limiter_service.py lines 23-28). -/
def is_allowed (st : RLState) (user_id : String) (current_time : Int) : AllowedResult :=
  let r := add_request st user_id current_time
  if r.allowed then ⟨r.state, true, "", r.request_id⟩
  else ⟨r.state, false, "Call Limit Reached", r.request_id⟩

/-- RateLimiterService.get_current_request_count (rate_limiter_service.py
lines 67-73): purge, then return the queue length. -/
def get_current_request_count (st : RLState) (user_id : String)
    (current_time : Int) : RLState × Nat :=
  let q := clean_expired_requests st.time_window current_time (st.queues user_id)
  (updateQueue st user_id q, q.length)

/-- Modelled from the spec: the purge the specification describes removes
exactly the timestamps strictly older than now - time_window (an entry of
age exactly time_window is kept). Stated for comparison with the source
purge clean_expired_requests. -/
def spec_purge (time_window current_time : Int) (q : List RequestInfo) :
    List RequestInfo :=
  q.filter (fun r => !(current_time - r.timestamp > time_window))

end RateLimiter

namespace RefCount

/-!
Interleaving model of the reference-count update in views.py.

FileViewSet.create reads the FileStorage row (find_existing_storage,
views.py line 199) into a Python object, increments the attribute in
memory (line 222) and persists the incremented value with save()
(line 223); FileViewSet.destroy does the same with a decrement
(lines 285-306). Two concurrent handlers for the same fingerprint each
run their own fetch and save; the transaction does not take a row lock,
so the micro-steps of the two handlers may interleave. Thread A and
thread B below each perform one such read-modify-write increment.
-/

inductive RmwEvent where
  | fetchA
  | saveIncrA
  | fetchB
  | saveIncrB
  deriving DecidableEq, Repr

/-- Shared persisted reference_count plus each handler's in-memory copy
of the row attribute. -/
structure RmwState where
  reference_count : Int
  regA : Int
  regB : Int
  deriving DecidableEq, Repr

def rmw_step (s : RmwState) : RmwEvent → RmwState
  | .fetchA => { s with regA := s.reference_count }
  | .saveIncrA => { s with reference_count := s.regA + 1 }
  | .fetchB => { s with regB := s.reference_count }
  | .saveIncrB => { s with reference_count := s.regB + 1 }

def rmw_run (s : RmwState) : List RmwEvent → RmwState
  | [] => s
  | e :: es => rmw_run (rmw_step s e) es

/-- The persistence-layer primitive the specification mandates: each
increment or decrement is a single atomic update expression. -/
inductive AtomicOp where
  | increment_reference
  | decrement_reference
  deriving DecidableEq, Repr

def atomic_step (c : Int) : AtomicOp → Int
  | .increment_reference => c + 1
  | .decrement_reference => c - 1

def atomic_run (c : Int) : List AtomicOp → Int
  | [] => c
  | op :: ops => atomic_run (atomic_step c op) ops

end RefCount

namespace FileVault

/-- Upload history of one user u: unique contents of sizes 100, 200 and 50,
then two more copies of the 200-byte content, under the default 10 MB
limit (contents are named by their fingerprints). -/
def statsScenario : VaultState :=
  runOps (10 * 1024 * 1024) emptyVault
    [.createOp "u" "h100" "a" "t" 100 true,
     .createOp "u" "h200" "b" "t" 200 true,
     .createOp "u" "h50" "c" "t" 50 true,
     .createOp "u" "h200" "d" "t" 200 true,
     .createOp "u" "h200" "e" "t" 200 true]

/-- A state in which user u owns exactly one 7 MB file. -/
def sevenMBState : VaultState :=
  ⟨[⟨"h7", "p", 7 * 1024 * 1024, 1⟩], [⟨0, "h7", "u", "f", "t", false⟩], ["p"], 1⟩

/-- With a 100-byte limit: userA uploads content hX of 80 bytes, then
userB uploads content hY of 90 bytes; both are admitted. -/
def overQuotaPrefix : VaultState :=
  runOps 100 emptyVault
    [.createOp "userA" "hX" "x" "t" 80 true,
     .createOp "userB" "hY" "y" "t" 90 true]

/-- userB then uploads content hX, which already has a BlobRecord created
by userA's upload. -/
def overQuotaScenario : VaultState :=
  (create overQuotaPrefix "userB" "hX" "x2" "t" 80 true 100).1

/-- State reached after userA uploads content h1 of 100 bytes into an
empty vault (limit 1000). -/
def crossUserFirst : VaultState :=
  (create emptyVault "userA" "h1" "a.txt" "text/plain" 100 true 1000).1

/-- The File rows produced by repeated uploads of one content by one user:
the i-th row has fid i and is a duplicate exactly when i is not 0. -/
def mkFile (uid h fname ftype : String) (i : Nat) : FileRecord :=
  ⟨i, h, uid, fname, ftype, i != 0⟩

/-- Closed form of the state after n uploads (n at least 1) of the same
content by one user into an initially empty vault. -/
def stateAfter (uid h fname ftype : String) (size n : Nat) : VaultState :=
  ⟨[⟨h, s3Path h fname, size, n⟩],
   (List.range n).map (mkFile uid h fname ftype),
   [s3Path h fname], n⟩

/-- Ledger invariant: every persisted BlobRecord has a positive reference
count, and file hashes are unique (the UNIQUE constraint on
FileStorage.file_hash). -/
def VaultInv (st : VaultState) : Prop :=
  (∀ b ∈ st.blobs, 1 ≤ b.reference_count) ∧
  (st.blobs.map (fun b => b.file_hash)).Nodup

end FileVault

namespace RateLimiter

/-- Rate limiter with the documented defaults max_calls = 2,
time_window = 1 s, no recorded requests. -/
def rlInit : RLState := ⟨2, 1, fun _ => [], 0⟩

end RateLimiter

section Claims

open FileVault RateLimiter RefCount

/-- The purge never lengthens a queue. -/
lemma clean_expired_length_le (time_window current_time : Int)
    (q : List RequestInfo) :
    (clean_expired_requests time_window current_time q).length ≤ q.length := by
  induction q with
  | nil => simp [clean_expired_requests]
  | cons r rs ih =>
    simp only [clean_expired_requests]
    split
    · exact le_trans ih (by simp)
    · simp

/-- C1: the spec requires increment_reference and
decrement_reference_and_maybe_delete to be single atomic update
expressions at the persistence layer, making the final count equal to the
initial count plus increments minus decrements under every interleaving.
FileViewSet.create (views.py lines 199, 222-223) instead reads the row,
increments the Python attribute and saves: interleaving two concurrent
increments of a count-1 row loses one update (final count 2), while the
mandated atomic primitive yields 3. This evaluates the code's
read-modify-write at that failing interleaving. -/
theorem claim1_rmw_lost_update :
    (rmw_run ⟨1, 0, 0⟩ [.fetchA, .fetchB, .saveIncrA, .saveIncrB]).reference_count = 2 ∧
    atomic_run 1 [.increment_reference, .increment_reference] = 3 ∧
    (2 : Int) ≠ 3 := by decide

/-- C2 counterexample: deduplication is not user-scoped. After userA
uploads content h1, userB's upload of the same content increments the
existing BlobRecord (reference_count 2, result marked duplicate) instead
of creating a second BlobRecord, refuting the claim that uploads of
identical content by different users do not share a BlobRecord. -/
theorem claim2_counterexample :
    (create crossUserFirst "userB" "h1" "b.txt" "text/plain" 100 true 1000).2 =
      .created true ∧
    ((create crossUserFirst "userB" "h1" "b.txt" "text/plain" 100 true 1000).1).blobs.map
      (fun b => b.reference_count) = [2] ∧
    ((create crossUserFirst "userB" "h1" "b.txt" "text/plain" 100 true 1000).1).blobs.length
      ≠ 2 := by decide

/-- C2 amended: deduplication is global by fingerprint. Whenever any
BlobRecord with the uploaded fingerprint exists, create increments its
reference_count and creates no new BlobRecord, for every uploading user,
including users other than the one who first uploaded the content. -/
theorem claim2_dedup_is_global (st : VaultState) (uid h fname ftype : String)
    (size limit : Nat) (s3ok : Bool) (b : BlobRecord)
    (hfind : find_existing_storage st h = some b) :
    (create st uid h fname ftype size s3ok limit).2 = .created true ∧
    ((create st uid h fname ftype size s3ok limit).1).blobs = bumpRef h st.blobs ∧
    ((create st uid h fname ftype size s3ok limit).1).blobs.length = st.blobs.length := by
  unfold create
  rw [hfind]
  exact ⟨rfl, rfl, by simp [bumpRef]⟩

/-- C2 witness: userB's re-upload of userA's content is admitted as a
duplicate of the shared BlobRecord. -/
theorem claim2_witness :
    (create crossUserFirst "userB" "h1" "b2.txt" "text/plain" 100 true 1000).2 =
      .created true :=
  (claim2_dedup_is_global crossUserFirst "userB" "h1" "b2.txt" "text/plain" 100 1000 true
    ⟨"h1", "files/h1/a.txt", 100, 1⟩ (by decide)).1

/-- C6: check_storage_limit denies exactly when usage plus the additional
bytes strictly exceeds the limit; at a 10 MB limit with usage exactly
7 MB, 3 MB more is allowed (inclusive boundary) and 3 MB + 1 byte is
denied. -/
theorem claim6_quota_boundary :
    (∀ (st : VaultState) (uid : String) (add limit : Nat),
      ((check_storage_limit st uid add limit).1 = false ↔
        get_user_storage_usage st uid + add > limit)) ∧
    check_storage_limit sevenMBState "u" (3 * 1024 * 1024) (10 * 1024 * 1024) =
      (true, "") ∧
    check_storage_limit sevenMBState "u" (3 * 1024 * 1024 + 1) (10 * 1024 * 1024) =
      (false, "Storage Quota Exceeded") := by
  refine ⟨fun st uid add limit => ?_, by decide, by decide⟩
  unfold check_storage_limit
  split <;> simp_all

/-- C6 witness: the boundary instances, read off the theorem. -/
theorem claim6_witness :
    check_storage_limit sevenMBState "u" (3 * 1024 * 1024) (10 * 1024 * 1024) =
      (true, "") :=
  claim6_quota_boundary.2.1

/-- C8 counterexample: the purge boundary is exclusive, not inclusive.
_clean_expired_requests pops entries with current_time - timestamp at
least time_window, so an entry of age exactly time_window (timestamp 0,
now 1, window 1) is removed, while the claim (spec_purge, which removes
only strictly older entries) would keep it. -/
theorem claim8_counterexample :
    clean_expired_requests 1 1 [⟨0, 0, "u"⟩] = [] ∧
    spec_purge 1 1 [⟨0, 0, "u"⟩] = [⟨0, 0, "u"⟩] ∧
    (([] : List RequestInfo) ≠ [⟨0, 0, "u"⟩]) := by decide

/-- C8 amended: on a timestamp-sorted queue (which every reachable queue
is), the purge removes exactly the entries whose age is at least
time_window; an entry of age exactly time_window is expired and removed,
and entries of age strictly below time_window are kept and still count. -/
theorem claim8_purge_boundary (time_window current_time : Int)
    (q : List RequestInfo)
    (hsort : q.Pairwise (fun a b => a.timestamp ≤ b.timestamp)) :
    clean_expired_requests time_window current_time q =
      q.filter (fun r => current_time - r.timestamp < time_window) := by
  induction q with
  | nil => rfl
  | cons r rs ih =>
    rcases List.pairwise_cons.mp hsort with ⟨hr, hrs⟩
    by_cases hexp : time_window ≤ current_time - r.timestamp
    · have h1 : clean_expired_requests time_window current_time (r :: rs) =
          clean_expired_requests time_window current_time rs := by
        simp [clean_expired_requests, hexp]
      rw [h1, List.filter_cons_of_neg (by simp [not_lt.mpr hexp])]
      exact ih hrs
    · push_neg at hexp
      have h1 : clean_expired_requests time_window current_time (r :: rs) = r :: rs := by
        simp [clean_expired_requests, not_le.mpr hexp]
      rw [h1, List.filter_cons_of_pos (by simp [hexp])]
      congr 1
      refine (List.filter_eq_self.mpr (fun x hx => ?_)).symm
      have hle : r.timestamp ≤ x.timestamp := hr x hx
      have hlt : current_time - x.timestamp < time_window := by omega
      simpa using hlt

/-- C8 witness for the amended purge: window 3 at time 4 drops the entry
of age 4 and keeps the entry of age -1. -/
theorem claim8_witness :
    clean_expired_requests 3 4 [⟨0, 0, "u"⟩, ⟨1, 5, "u"⟩] = [⟨1, 5, "u"⟩] := by
  rw [claim8_purge_boundary 3 4 _ (by decide)]
  decide

/-- C7: add_request first purges the user's expired entries, admits and
appends now exactly when the purged queue is shorter than max_calls,
otherwise denies with message Call Limit Reached leaving the purged queue
unchanged; the request id is the freshly generated one in either case,
and afterwards the user's queue never holds more than max_calls entries. -/
theorem claim7_rate_limit_steps (st : RLState) (uid : String) (now : Int)
    (hlen : (st.queues uid).length ≤ st.max_calls) :
    ((add_request st uid now).allowed = true ↔
      (clean_expired_requests st.time_window now (st.queues uid)).length < st.max_calls) ∧
    ((add_request st uid now).allowed = true →
      (add_request st uid now).state.queues uid =
        clean_expired_requests st.time_window now (st.queues uid) ++
          [⟨(add_request st uid now).request_id, now, uid⟩]) ∧
    ((add_request st uid now).allowed = false →
      (add_request st uid now).state.queues uid =
        clean_expired_requests st.time_window now (st.queues uid) ∧
      (is_allowed st uid now).message = "Call Limit Reached") ∧
    (add_request st uid now).request_id = st.nextRequestId ∧
    (add_request st uid now).state.nextRequestId = st.nextRequestId + 1 ∧
    ((add_request st uid now).state.queues uid).length ≤ st.max_calls := by
  have hqlen := clean_expired_length_le st.time_window now (st.queues uid)
  by_cases hcase : st.max_calls ≤
      (clean_expired_requests st.time_window now (st.queues uid)).length
  · have hadd : add_request st uid now =
        ⟨updateQueue { st with nextRequestId := st.nextRequestId + 1 } uid
            (clean_expired_requests st.time_window now (st.queues uid)),
          st.nextRequestId, false⟩ := by
      unfold add_request
      rw [if_pos hcase]
    refine ⟨?_, ?_, ?_, ?_, ?_, ?_⟩
    · rw [hadd]
      simp [not_lt.mpr hcase]
    · rw [hadd]
      intro h
      exact absurd h (by simp)
    · intro _
      refine ⟨by rw [hadd]; simp [updateQueue], ?_⟩
      unfold is_allowed
      rw [hadd]
      simp
    · rw [hadd]
    · rw [hadd]
      simp [updateQueue]
    · rw [hadd]
      simpa [updateQueue] using le_trans hqlen hlen
  · have hlt := not_le.mp hcase
    have hadd : add_request st uid now =
        ⟨updateQueue { st with nextRequestId := st.nextRequestId + 1 } uid
            (clean_expired_requests st.time_window now (st.queues uid) ++
              [⟨st.nextRequestId, now, uid⟩]),
          st.nextRequestId, true⟩ := by
      unfold add_request
      rw [if_neg hcase]
    refine ⟨?_, ?_, ?_, ?_, ?_, ?_⟩
    · rw [hadd]
      simp [hlt]
    · rw [hadd]
      intro _
      simp [updateQueue]
    · rw [hadd]
      intro h
      exact absurd h (by simp)
    · rw [hadd]
    · rw [hadd]
      simp [updateQueue]
    · rw [hadd]
      simp only [updateQueue]
      simp
      omega

/-- C7 witness: from the default configuration with an empty queue, the
first call is admitted and receives the fresh request id 0. -/
theorem claim7_witness :
    (add_request rlInit "u" 5).allowed = true ∧
    (add_request rlInit "u" 5).request_id = 0 :=
  ⟨(claim7_rate_limit_steps rlInit "u" 5 (by decide)).1.mpr (by decide),
   (claim7_rate_limit_steps rlInit "u" 5 (by decide)).2.2.2.1⟩

/-- C9: with no existing BlobRecord for the fingerprint, a quota denial
returns QuotaExceeded with the state (ledger, file records and blob
store) fully unchanged, and an S3 write failure returns s3UploadFailed,
likewise leaving the state unchanged: no ledger row or FileRecord is
created and no blob-store write is retained. -/
theorem claim9_failed_admission_no_mutation (st : VaultState)
    (uid h fname ftype : String) (size limit : Nat)
    (hnew : find_existing_storage st h = none) :
    (get_user_storage_usage st uid + size > limit →
      ∀ s3ok : Bool, create st uid h fname ftype size s3ok limit = (st, .quotaExceeded)) ∧
    (get_user_storage_usage st uid + size ≤ limit →
      create st uid h fname ftype size false limit = (st, .s3UploadFailed)) := by
  constructor
  · intro hq s3ok
    unfold create
    rw [hnew]
    have hc : (check_storage_limit st uid size limit).1 = false := by
      unfold check_storage_limit
      rw [if_pos hq]
    rw [if_pos hc]
  · intro hq
    unfold create
    rw [hnew]
    have hc : (check_storage_limit st uid size limit).1 = true := by
      unfold check_storage_limit
      rw [if_neg (not_lt.mpr hq)]
    rw [if_neg (by simp [hc]), if_pos rfl]

/-- C9 witness: a 5-byte upload into an empty vault with limit 3 is
rejected with QuotaExceeded, and with limit 10 but a failing S3 write it
is rejected with s3UploadFailed; the vault stays empty both times. -/
theorem claim9_witness :
    create emptyVault "u" "h" "a" "t" 5 true 3 = (emptyVault, .quotaExceeded) ∧
    create emptyVault "u" "h" "a" "t" 5 false 10 = (emptyVault, .s3UploadFailed) :=
  ⟨(claim9_failed_admission_no_mutation emptyVault "u" "h" "a" "t" 5 3 rfl).1
      (by decide) true,
   (claim9_failed_admission_no_mutation emptyVault "u" "h" "a" "t" 5 10 rfl).2
      (by decide)⟩

/-- C10: when the fingerprint already has a BlobRecord, create never
consults the quota and admits the upload for every owner at every usage
level and limit (even with a failing S3 service, which is not contacted);
consequently usage is not bounded by the limit: in overQuotaScenario
userB's duplicate upload of userA's content raises userB's deduplicated
usage to 170 bytes against a 100-byte limit. -/
theorem claim10_duplicate_bypasses_quota :
    (∀ (st : VaultState) (uid h fname ftype : String) (size : Nat) (s3ok : Bool)
        (limit : Nat) (b : BlobRecord),
      find_existing_storage st h = some b →
      (create st uid h fname ftype size s3ok limit).2 = .created true) ∧
    get_user_storage_usage overQuotaScenario "userB" = 170 ∧
    ¬ get_user_storage_usage overQuotaScenario "userB" ≤ 100 := by
  refine ⟨fun st uid h fname ftype size s3ok limit b hfind => ?_, by decide, by decide⟩
  unfold create
  rw [hfind]

/-- C10 witness: userB's duplicate upload is admitted although userB's
usage (90) plus the duplicate size (80) exceeds the 100-byte limit. -/
theorem claim10_witness :
    (create overQuotaPrefix "userB" "hX" "x2" "t" 80 true 100).2 = .created true :=
  claim10_duplicate_bypasses_quota.1 overQuotaPrefix "userB" "hX" "x2" "t" 80 true 100
    ⟨"hX", "files/hX/x", 80, 1⟩ (by decide)

/-- Replacing each ledger row by a size-preserving image and switching to
a pointwise-equal selection predicate preserves the selected-size sum. -/
lemma filter_map_sum_congr (blobs : List BlobRecord) (g : BlobRecord → BlobRecord)
    (P Q : BlobRecord → Bool)
    (hg : ∀ c ∈ blobs, (g c).size = c.size ∧ Q (g c) = P c) :
    (((blobs.map g).filter Q).map (fun b => b.size)).sum =
      ((blobs.filter P).map (fun b => b.size)).sum := by
  induction blobs with
  | nil => rfl
  | cons c cs ih =>
    obtain ⟨hsize, hQ⟩ := hg c (by simp)
    have ih2 := ih (fun x hx => hg x (by simp [hx]))
    simp only [List.map_cons, List.filter_cons, hQ]
    by_cases hP : P c = true
    · simp only [hP, if_true, List.map_cons, List.sum_cons, hsize, ih2]
    · rw [if_neg hP, if_neg hP]
      exact ih2

/-- C3: a user's deduplicated usage counts each distinct content once: a
duplicate upload by an owner who already references the content leaves
usage(owner) unchanged; and in the concrete scenario (unique contents of
sizes 100, 200, 50 plus two more copies of the 200-byte content) usage is
350, original_storage_used is 750 and the savings are 400. -/
theorem claim3_usage_distinct_once (st : VaultState)
    (uid h fname ftype : String) (size limit : Nat) (s3ok : Bool)
    (b : BlobRecord) (hfind : find_existing_storage st h = some b)
    (f0 : FileRecord) (hf0 : f0 ∈ st.files) (hu : f0.user_id = uid)
    (hh : f0.storageHash = h) :
    get_user_storage_usage ((create st uid h fname ftype size s3ok limit).1) uid =
      get_user_storage_usage st uid ∧
    user_storage_stats statsScenario "u" = ⟨350, 750, 400⟩ := by
  refine ⟨?_, by decide⟩
  have hcreate : (create st uid h fname ftype size s3ok limit).1 =
      { st with blobs := bumpRef h st.blobs,
                files := st.files ++ [⟨st.nextFid, h, uid, fname, ftype, true⟩],
                nextFid := st.nextFid + 1 } := by
    unfold create
    rw [hfind]
  rw [hcreate]
  unfold get_user_storage_usage bumpRef
  simp only []
  refine filter_map_sum_congr st.blobs _ _ _ (fun c hc => ⟨?_, ?_⟩)
  · by_cases hch : c.file_hash == h <;> simp [hch]
  · have hghash :
        (if c.file_hash == h then
          { c with reference_count := c.reference_count + 1 } else c).file_hash
          = c.file_hash := by
      by_cases hch : c.file_hash == h <;> simp [hch]
    simp only [List.any_append, hghash, List.any_cons, List.any_nil, Bool.or_false]
    by_cases hch : c.file_hash = h
    · simp [hch, hu]
      exact ⟨f0, hf0, hu, hh⟩
    · have : (h == c.file_hash) = false := by
        simp [Ne.symm hch]
      simp [this]

/-- C3 witness: one more copy of the 200-byte content leaves usage at its
deduplicated value in the concrete scenario. -/
theorem claim3_witness :
    get_user_storage_usage
        ((create statsScenario "u" "h200" "x" "t" 200 true 10485760).1) "u" =
      get_user_storage_usage statsScenario "u" :=
  (claim3_usage_distinct_once statsScenario "u" "h200" "x" "t" 200 10485760 true
      ⟨"h200", "files/h200/b", 200, 3⟩ (by decide)
      ⟨1, "h200", "u", "b", "t", false⟩ (by decide) rfl rfl).1

/-- A map that preserves file hashes leaves the hash column unchanged. -/
lemma map_hash_of_preserve (g : BlobRecord → BlobRecord) (blobs : List BlobRecord)
    (hg : ∀ c, (g c).file_hash = c.file_hash) :
    (blobs.map g).map (fun b => b.file_hash) = blobs.map (fun b => b.file_hash) := by
  induction blobs with
  | nil => rfl
  | cons c cs ih => simp [hg, ih]

/-- Every API operation preserves the ledger invariant. -/
lemma applyOp_inv (limit : Nat) (st : VaultState) (hst : VaultInv st) (op : Op) :
    VaultInv (applyOp limit st op) := by
  obtain ⟨hpos, hnodup⟩ := hst
  cases op with
  | createOp uid h fname ftype size s3ok =>
    simp only [applyOp]
    unfold create
    rcases hfind : find_existing_storage st h with _ | b
    · by_cases hq : (check_storage_limit st uid size limit).1 = false
      · rw [if_pos hq]
        exact ⟨hpos, hnodup⟩
      · rw [if_neg hq]
        by_cases hs3 : s3ok = false
        · rw [if_pos hs3]
          exact ⟨hpos, hnodup⟩
        · rw [if_neg hs3]
          constructor
          · intro c hc
            rcases List.mem_append.mp hc with hc | hc
            · exact hpos c hc
            · rw [List.mem_singleton.mp hc]
          · have hnot : h ∉ st.blobs.map (fun b => b.file_hash) := by
              intro hmem
              rcases List.mem_map.mp hmem with ⟨c, hc, hch⟩
              exact (List.find?_eq_none.mp hfind c hc) (by simp [hch])
            simp only [List.map_append, List.map_cons, List.map_nil]
            exact List.Nodup.append hnodup (List.nodup_singleton h)
              (by simpa [List.disjoint_singleton] using hnot)
    · constructor
      · intro c hc
        simp only [bumpRef] at hc
        rcases List.mem_map.mp hc with ⟨c0, hc0, hceq⟩
        subst hceq
        by_cases hch : (c0.file_hash == h) = true
        · rw [if_pos hch]
          show 1 ≤ c0.reference_count + 1
          omega
        · rw [if_neg hch]
          exact hpos c0 hc0
      · simp only [bumpRef]
        rw [map_hash_of_preserve _ _ (fun c => by
          by_cases hch : (c.file_hash == h) = true <;> simp [hch])]
        exact hnodup
  | destroyOp fid uid =>
    simp only [applyOp]
    unfold destroy
    split
    · exact ⟨hpos, hnodup⟩
    · next inst hfindf =>
      by_cases howner : (inst.user_id != uid) = true
      · rw [if_pos howner]
        exact ⟨hpos, hnodup⟩
      · rw [if_neg howner]
        split
        · exact ⟨hpos, hnodup⟩
        · next b hfindb =>
          by_cases hzero : (b.reference_count - 1 == 0) = true
          · rw [if_pos hzero]
            constructor
            · intro c hc
              exact hpos c (List.mem_of_mem_filter hc)
            · exact hnodup.sublist (List.Sublist.map _ (List.filter_sublist _))
          · rw [if_neg hzero]
            have hbmem : b ∈ st.blobs := List.mem_of_find?_eq_some hfindb
            have hbhash : b.file_hash = inst.storageHash := by
              have hb2 := List.find?_some hfindb
              simpa using hb2
            constructor
            · intro c hc
              rcases List.mem_map.mp hc with ⟨c0, hc0, hceq⟩
              subst hceq
              by_cases hch : (c0.file_hash == inst.storageHash) = true
              · have hc0b : c0 = b := by
                  refine List.inj_on_of_nodup_map hnodup hc0 hbmem ?_
                  rw [beq_iff_eq] at hch
                  rw [hch, hbhash]
                rw [if_pos hch]
                show 1 ≤ c0.reference_count - 1
                have hne : ¬ (c0.reference_count - 1 = 0) := by
                  rw [hc0b]
                  simpa using hzero
                omega
              · rw [if_neg hch]
                exact hpos c0 hc0
            · rw [map_hash_of_preserve _ _ (fun c => by
                by_cases hch : (c.file_hash == inst.storageHash) = true <;> simp [hch])]
              exact hnodup

/-- The invariant holds in every state reachable from the empty vault. -/
lemma runOps_inv (limit : Nat) (ops : List Op) (st : VaultState) (hst : VaultInv st) :
    VaultInv (runOps limit st ops) := by
  induction ops generalizing st with
  | nil => exact hst
  | cons op ops ih => exact ih _ (applyOp_inv limit st hst op)

/-- C4: no operation ever observes a persisted BlobRecord with
reference_count 0: in every state reachable from the empty vault by any
sequence of create and destroy calls, every BlobRecord in the ledger has
reference_count at least 1 (the destroy path deletes the row in the same
step in which the count would drop to 0, never persisting the 0). -/
theorem claim4_no_zero_refcount (limit : Nat) (ops : List Op)
    (b : BlobRecord) (hb : b ∈ (runOps limit emptyVault ops).blobs) :
    1 ≤ b.reference_count :=
  (runOps_inv limit ops emptyVault ⟨by simp [emptyVault], by simp [emptyVault]⟩).1 b hb

/-- C4 witness: the single blob after one upload has reference count 1. -/
theorem claim4_witness :
    1 ≤ (BlobRecord.mk "h" "files/h/a" 5 1).reference_count :=
  claim4_no_zero_refcount 100 [.createOp "u" "h" "a" "t" 5 true]
    ⟨"h", "files/h/a", 5, 1⟩ (by decide)

/-- Running a concatenation of operation lists runs them in sequence. -/
lemma runOps_append (limit : Nat) (l1 l2 : List Op) (st : VaultState) :
    runOps limit st (l1 ++ l2) = runOps limit (runOps limit st l1) l2 := by
  induction l1 generalizing st with
  | nil => rfl
  | cons op ops ih =>
    simp only [List.cons_append, runOps]
    exact ih _

/-- First upload of a content into the empty vault (within quota,
S3 healthy) reaches the closed form for n = 1. -/
lemma create_first_step (uid h fname ftype : String) (size limit : Nat)
    (hsize : size ≤ limit) :
    applyOp limit emptyVault (.createOp uid h fname ftype size true) =
      stateAfter uid h fname ftype size 1 := by
  simp only [applyOp]
  unfold create
  have hfind : find_existing_storage emptyVault h = none := rfl
  rw [hfind]
  have hq : (check_storage_limit emptyVault uid size limit).1 = true := by
    unfold check_storage_limit
    have husage : get_user_storage_usage emptyVault uid = 0 := rfl
    rw [husage, if_neg (by omega)]
  rw [if_neg (by simp [hq]), if_neg (by simp)]
  rfl

/-- A further upload of the same content moves the closed form from n to
n + 1: the blob's reference count is incremented and the new FileRecord
is marked duplicate. -/
lemma create_dup_step (uid h fname ftype : String) (size n : Nat) (s3ok : Bool)
    (limit : Nat) (hn : 1 ≤ n) :
    applyOp limit (stateAfter uid h fname ftype size n)
        (.createOp uid h fname ftype size s3ok) =
      stateAfter uid h fname ftype size (n + 1) := by
  simp only [applyOp]
  unfold create
  have hfind : find_existing_storage (stateAfter uid h fname ftype size n) h =
      some ⟨h, s3Path h fname, size, n⟩ := by
    simp [find_existing_storage, stateAfter]
  rw [hfind]
  simp only [stateAfter]
  congr 1
  · simp [bumpRef]
  · rw [List.range_succ, List.map_append]
    congr 1
    simp [mkFile, Nat.one_le_iff_ne_zero.mp hn]

/-- The duplicate flags of the first n uploads: false for the first
upload, true for every later one. -/
lemma range_map_dup_flags (uid h fname ftype : String) (m : Nat) (hm : 1 ≤ m) :
    (List.range m).map (fun i => (mkFile uid h fname ftype i).is_duplicate) =
      false :: List.replicate (m - 1) true := by
  induction m with
  | zero => omega
  | succ k ih =>
    by_cases hk : 1 ≤ k
    · rw [List.range_succ, List.map_append, ih hk]
      have h1 : (mkFile uid h fname ftype k).is_duplicate = true := by
        simp [mkFile, Nat.one_le_iff_ne_zero.mp hk]
      simp only [List.map_cons, List.map_nil, h1, List.cons_append]
      congr 1
      rw [← List.replicate_succ' (k - 1) true]
      congr 1
      omega
    · have hk0 : k = 0 := by omega
      subst hk0
      simp only [mkFile]
      decide

/-- n sequential uploads of one content by one user, starting from the
empty vault, land exactly on the closed-form state. -/
lemma uploadN_closed_form (uid h fname ftype : String) (size limit : Nat)
    (n : Nat) (hn : 1 ≤ n) (hsize : size ≤ limit) :
    runOps limit emptyVault
        (List.replicate n (.createOp uid h fname ftype size true)) =
      stateAfter uid h fname ftype size n := by
  induction n with
  | zero => omega
  | succ m ih =>
    by_cases hm : 1 ≤ m
    · rw [List.replicate_succ', runOps_append, ih hm]
      simp only [runOps]
      exact create_dup_step uid h fname ftype size m true limit hm
    · have hm0 : m = 0 := by omega
      subst hm0
      simp only [List.replicate_succ, List.replicate_zero]
      show runOps limit (applyOp limit emptyVault _) [] = _
      exact create_first_step uid h fname ftype size limit hsize

/-- C5: uploading the same content n times sequentially (n at least 1,
within quota) for one owner yields exactly one BlobRecord whose
reference_count is n, exactly n FileRecords all owned by that user and
referencing that content, of which the first has is_duplicate false and
the remaining n - 1 have is_duplicate true. -/
theorem claim5_n_uploads (uid h fname ftype : String) (size limit n : Nat)
    (hn : 1 ≤ n) (hsize : size ≤ limit) :
    (runOps limit emptyVault
        (List.replicate n (.createOp uid h fname ftype size true))).blobs =
      [⟨h, s3Path h fname, size, n⟩] ∧
    (runOps limit emptyVault
        (List.replicate n (.createOp uid h fname ftype size true))).files.length = n ∧
    (runOps limit emptyVault
        (List.replicate n (.createOp uid h fname ftype size true))).files.map
      (fun f => f.is_duplicate) = false :: List.replicate (n - 1) true ∧
    ∀ f ∈ (runOps limit emptyVault
        (List.replicate n (.createOp uid h fname ftype size true))).files,
      f.user_id = uid ∧ f.storageHash = h := by
  rw [uploadN_closed_form uid h fname ftype size limit n hn hsize]
  refine ⟨rfl, by simp [stateAfter], ?_, ?_⟩
  · show ((List.range n).map (mkFile uid h fname ftype)).map
        (fun f => f.is_duplicate) = false :: List.replicate (n - 1) true
    rw [List.map_map]
    exact range_map_dup_flags uid h fname ftype n hn
  · intro f hf
    have hf2 : f ∈ (List.range n).map (mkFile uid h fname ftype) := hf
    rcases List.mem_map.mp hf2 with ⟨i, _, hieq⟩
    rw [← hieq]
    exact ⟨rfl, rfl⟩

/-- C5 witness: three uploads of a 5-byte content yield one blob with
reference count 3 and duplicate flags false, true, true. -/
theorem claim5_witness :
    (runOps 100 emptyVault
        (List.replicate 3 (Op.createOp "u" "h" "a" "t" 5 true))).blobs =
      [⟨"h", s3Path "h" "a", 5, 3⟩] ∧
    (runOps 100 emptyVault
        (List.replicate 3 (Op.createOp "u" "h" "a" "t" 5 true))).files.map
      (fun f => f.is_duplicate) = false :: List.replicate 2 true :=
  ⟨(claim5_n_uploads "u" "h" "a" "t" 5 100 3 (by decide) (by decide)).1,
   (claim5_n_uploads "u" "h" "a" "t" 5 100 3 (by decide) (by decide)).2.2.1⟩

end Claims
